import Mathlib

/-!
# Verification of the self-update agent (`updater.py`)

Shallow embedding of the update-relevant parts of `updater.py` and proofs of
the specification's claims about them.

Conventions of the embedding:
* Strings are modelled over ASCII characters (the version strings the program
  handles are ASCII dotted numerics); `str.isdigit` is modelled as "non-empty
  and all ASCII decimal digits".
* Filesystem and network effects are modelled by explicit state passing: the
  outcome of each network/disk operation is an environment oracle, and the
  updater's observable state (files present, progress variables, status text,
  dialog boxes shown, launch flag) is threaded through explicitly.
* Python exceptions are modelled by the explicit early-return structure of the
  translated functions.
-/

namespace Updater

/-! ## Version comparison (`compare_versions`, updater.py lines 51-68) -/

/-- Characters removed by Python `str.strip()` (ASCII whitespace). -/
def pyWhitespace (c : Char) : Bool :=
  c == ' ' || c == '\t' || c == '\n' || c == '\r' || c == '\x0b' || c == '\x0c'

/-- `str.strip()`: drop whitespace from both ends. -/
def pyStrip (cs : List Char) : List Char :=
  ((cs.dropWhile pyWhitespace).reverse.dropWhile pyWhitespace).reverse

/-- Python `str.split('.')`: splitting the empty string gives `[""]`, and every
`'.'` separates two (possibly empty) segments. -/
def splitOnDot : List Char → List (List Char)
  | [] => [[]]
  | c :: rest =>
    if c = '.' then [] :: splitOnDot rest
    else
      match splitOnDot rest with
      | g :: gs => (c :: g) :: gs
      | [] => [[c]]

/-- Python `str.isdigit()` for ASCII strings: non-empty and all decimal digits. -/
def pyIsdigit (cs : List Char) : Bool :=
  !cs.isEmpty && cs.all Char.isDigit

/-- `int(...)` on a string of decimal digits. -/
def digitsToNat (cs : List Char) : Nat :=
  cs.foldl (fun a c => a * 10 + (c.toNat - '0'.toNat)) 0

/-- `normalize_version` (updater.py lines 53-55): strip, split on `'.'`, map
each segment to its integer value, a non-digit segment to 0. -/
def normalize_version (v : String) : List Nat :=
  (splitOnDot (pyStrip v.toList)).map (fun p => if pyIsdigit p then digitsToNat p else 0)

/-- Right-pad a part list with zeros to length `m` (lines 60-61). -/
def padParts (l : List Nat) (m : Nat) : List Nat :=
  l ++ List.replicate (m - l.length) 0

/-- The comparison loop (lines 63-68): first unequal pair decides, exhaustion
yields 0.  The two lists always have equal length at call sites. -/
def cmpParts : List Nat → List Nat → Int
  | p1 :: t1, p2 :: t2 =>
    if p1 > p2 then 1 else if p1 < p2 then -1 else cmpParts t1 t2
  | _, _ => 0

/-- `compare_versions` (updater.py lines 51-68): 1 if `v1 > v2`, 0 if equal,
-1 if `v1 < v2`.  Total: every branch of the translation is total, so the
function never fails on any input string. -/
def compare_versions (v1 v2 : String) : Int :=
  let v1_parts := normalize_version v1
  let v2_parts := normalize_version v2
  let max_len := max v1_parts.length v2_parts.length
  cmpParts (padParts v1_parts max_len) (padParts v2_parts max_len)

/-! Specification-side comparison for claim C3: numeric comparison of the
padded integer tuples, via the lexicographic order `List.Lex` on `List Nat`
(an independent formulation of "the first unequal element decides"). -/

/-- The integer tuple of a version string, right-padded with zeros against the
other string's tuple, exactly as the specification describes it. -/
def specTuple (a other : String) : List Nat :=
  padParts (normalize_version a)
    (max (normalize_version a).length (normalize_version other).length)

/-- Numeric comparison of the two padded tuples, stated through the standard
lexicographic order on lists of naturals. -/
def specCompare (a b : String) : Int :=
  if List.Lex (· < ·) (specTuple a b) (specTuple b a) then -1
  else if List.Lex (· < ·) (specTuple b a) (specTuple a b) then 1
  else 0

theorem lex_nil_nil_false : ¬ List.Lex (· < ·) ([] : List Nat) [] := by
  intro hx; cases hx

theorem cmpParts_eq_lex (l1 l2 : List Nat) (h : l1.length = l2.length) :
    cmpParts l1 l2 =
      if List.Lex (· < ·) l1 l2 then -1
      else if List.Lex (· < ·) l2 l1 then 1 else 0 := by
  induction l1 generalizing l2 with
  | nil =>
    cases l2 with
    | nil => simp [cmpParts, lex_nil_nil_false]
    | cons b t2 => simp at h
  | cons a t1 ih =>
    cases l2 with
    | nil => simp at h
    | cons b t2 =>
      simp only [List.length_cons, Nat.add_right_cancel_iff] at h
      rcases Nat.lt_trichotomy a b with hab | rfl | hab
      · have h1 : List.Lex (· < ·) (a :: t1) (b :: t2) := List.Lex.rel hab
        have h2 : cmpParts (a :: t1) (b :: t2) = -1 := by
          simp only [cmpParts, gt_iff_lt]
          rw [if_neg (Nat.lt_asymm hab), if_pos hab]
        rw [h2, if_pos h1]
      · have h1 : cmpParts (a :: t1) (a :: t2) = cmpParts t1 t2 := by
          simp [cmpParts]
        rw [h1, ih t2 h]
        simp only [List.Lex.cons_iff]
      · have h1 : List.Lex (· < ·) (b :: t2) (a :: t1) := List.Lex.rel hab
        have h2 : ¬ List.Lex (· < ·) (a :: t1) (b :: t2) := by
          intro hx
          cases hx with
          | cons _ => exact Nat.lt_irrefl a hab
          | rel hr => exact Nat.lt_asymm hab hr
        have h3 : cmpParts (a :: t1) (b :: t2) = 1 := by
          simp only [cmpParts, gt_iff_lt]
          rw [if_pos hab]
        rw [h3, if_neg h2, if_pos h1]

theorem padParts_length (l : List Nat) (m : Nat) (h : l.length ≤ m) :
    (padParts l m).length = m := by
  simp [padParts]
  omega

theorem cmpParts_antisymm (l1 l2 : List Nat) :
    cmpParts l1 l2 = -cmpParts l2 l1 := by
  induction l1 generalizing l2 with
  | nil =>
    cases l2 with
    | nil => simp [cmpParts]
    | cons b t2 => simp [cmpParts]
  | cons a t1 ih =>
    cases l2 with
    | nil => simp [cmpParts]
    | cons b t2 =>
      rcases Nat.lt_trichotomy a b with hab | rfl | hab
      · simp only [cmpParts, gt_iff_lt]
        rw [if_neg (Nat.lt_asymm hab), if_pos hab, if_pos hab]
      · simp only [cmpParts, gt_iff_lt]
        rw [if_neg (Nat.lt_irrefl a), if_neg (Nat.lt_irrefl a),
          if_neg (Nat.lt_irrefl a), if_neg (Nat.lt_irrefl a)]
        exact ih t2
      · simp only [cmpParts, gt_iff_lt]
        rw [if_pos hab, if_neg (Nat.lt_asymm hab), if_pos hab]
        decide

theorem compare_versions_eq_cmp (a b : String) :
    compare_versions a b = cmpParts (specTuple a b) (specTuple b a) := by
  simp only [compare_versions, specTuple]
  rw [max_comm (normalize_version b).length (normalize_version a).length]

/-- **C3.** `compare_versions` equals numeric (lexicographic) comparison of the
integer tuples obtained by splitting on `'.'`, mapping each non-numeric segment
to 0 and right-padding the shorter tuple with zeros; the first unequal element
decides, all-equal yields EQUAL (0); and in particular
`compare_versions "1.2" "1.2.0" = 0`, `compare_versions "1.x.0" "1.0.0" = 0`,
`compare_versions "2.0.0" "1.9.9" = 1`.  (The translated function is total,
matching "never raises".) -/
theorem compare_versions_eq_spec :
    (∀ a b : String, compare_versions a b = specCompare a b) ∧
    compare_versions "1.2" "1.2.0" = 0 ∧
    compare_versions "1.x.0" "1.0.0" = 0 ∧
    compare_versions "2.0.0" "1.9.9" = 1 := by
  refine ⟨fun a b => ?_, by decide, by decide, by decide⟩
  have h : (specTuple a b).length = (specTuple b a).length := by
    unfold specTuple
    rw [padParts_length _ _ (le_max_left _ _),
      padParts_length _ _ (le_max_left _ _)]
    exact max_comm _ _
  rw [compare_versions_eq_cmp, cmpParts_eq_lex _ _ h]
  rfl

/-- **C10.** The version comparison is antisymmetric: for every pair of
strings, `compare_versions a b` is the negation of `compare_versions b a`
(GREATER swaps with LESS, EQUAL maps to EQUAL). -/
theorem compare_versions_antisymm (a b : String) :
    compare_versions a b = -compare_versions b a := by
  rw [compare_versions_eq_cmp, compare_versions_eq_cmp]
  exact cmpParts_antisymm _ _

/-! ## State model of the updater (`AppUpdater`) -/

/-- Outcome of one (would-be) attempt of the archive download; the network
oracle.  `chunks` holds the sizes of the streamed chunks received, `total`
the Content-Length header (0 when absent), `hash` the digest the downloaded
file would have.  `err` is any transport error or non-success HTTP status
raised during the attempt, after `chunks` chunks were already written. -/
inductive DlOutcome where
  | ok (chunks : List Nat) (total : Nat) (hash : String)
  | err (chunks : List Nat) (total : Nat)
deriving DecidableEq, Repr

/-- Outcome of the extraction step.  `ok n placesBinary`: a zip archive with
`n` entries extracts fully and the resulting tree does (or does not) contain
the main executable.  `err done n binaryPresent`: an exception after `done`
of `n` entries, leaving the target directory possibly half-populated
(`binaryPresent` records whether that tree happens to contain the
executable). -/
inductive ExOutcome where
  | ok (nFiles : Nat) (placesBinary : Bool)
  | err (filesDone : Nat) (nFiles : Nat) (binaryPresent : Bool)
deriving DecidableEq, Repr

/-- Environment oracle of one update cycle: the outcomes of the successive
download attempts the cycle would make (consumed in order), the extraction
outcome, and whether writing the version file succeeds. -/
structure Env where
  dls : List DlOutcome
  ex : ExOutcome
  saveOk : Bool
deriving DecidableEq, Repr

/-- The piece of `self.config` the update cycle branches on:
`expected_hash` (`none` models the falsy `None` of the source). -/
structure Config where
  expected_hash : Option String
deriving DecidableEq, Repr

/-- Observable state of the updater: the in-memory fields of `AppUpdater`,
the files it owns, its progress variables, and its user-visible outputs. -/
structure UState where
  /-- `self.local_version` (in-memory). -/
  local_version : String
  /-- `self.remote_version` (set by `_fetch_remote_version`). -/
  remote_version : String
  /-- Version recorded in the file at `local_version_path`
  (`none` = file absent). -/
  local_version_file : Option String
  /-- File at `archive_save_path`: `none` = absent, `some h` = present with
  digest `h`. -/
  archive_file : Option String
  /-- Whether the tree under `extract_dir` is a half-finished extraction. -/
  extract_incomplete : Bool
  /-- Whether the file at `main_program_path` exists on disk. -/
  fs_binary_present : Bool
  /-- `self.main_program_missing` (cached flag, updated only by
  `_check_main_program_exists`). -/
  main_program_missing : Bool
  /-- `self.download_progress` (tk variable). -/
  download_progress : ℚ
  /-- `self.extract_progress` (tk variable). -/
  extract_progress : ℚ
  /-- `self.is_auto_running`. -/
  is_auto_running : Bool
  /-- Whether `subprocess.Popen` has been invoked on the main program. -/
  launched : Bool
  /-- `self.status_text`. -/
  status : String
  /-- `messagebox.showinfo` messages shown so far, most recent first. -/
  info_boxes : List String
  /-- `messagebox.showerror` messages shown so far, most recent first. -/
  error_boxes : List String
deriving DecidableEq, Repr

/-- Running totals of `downloaded_size` over the received chunks. -/
def runningTotals (acc : Nat) : List Nat → List Nat
  | [] => []
  | c :: rest => (acc + c) :: runningTotals (acc + c) rest

/-- The download-progress percentages emitted while streaming `chunks` when
the Content-Length is `total` (updater.py lines 636-642): empty chunks are
skipped by `if chunk:`, and nothing is emitted when the header is 0/absent. -/
def dlEmissions (chunks : List Nat) (total : Nat) : List ℚ :=
  if 0 < total then
    (runningTotals 0 (chunks.filter (fun c => c != 0))).map
      (fun (d : Nat) => (d : ℚ) * 100 / (total : ℚ))
  else []

/-- Result of `_download_archive`: the new state, the returned boolean, and
the successive values assigned to the download-progress variable during the
call. -/
structure DlRet where
  state : UState
  ok : Bool
  values : List ℚ
deriving DecidableEq, Repr

/-- `_download_archive` (updater.py lines 622-656).  On success the archive
file is written and progress finishes at 100; on any transport error or
non-success status (`raise_for_status`) the partially written file is deleted
(lines 653-654), an error dialog is shown and `False` is returned. -/
def download_archive (s : UState) (o : DlOutcome) : DlRet :=
  match o with
  | .ok chunks total h =>
    let ems := dlEmissions chunks total ++ [100]
    { state := { s with
        archive_file := some h
        download_progress := 100
        status := "下载完成" }
      ok := true
      values := ems }
  | .err chunks total =>
    let ems := dlEmissions chunks total
    { state := { s with
        archive_file := none
        download_progress := ems.getLast?.getD s.download_progress
        status := "下载错误"
        error_boxes := "下载失败" :: s.error_boxes }
      ok := false
      values := ems }

/-- The extract-progress percentages emitted for the first `done` of `n`
entries (updater.py lines 671-675). -/
def exEmissions (done n : Nat) : List ℚ :=
  (List.range done).map (fun (i : Nat) => ((i : ℚ) + 1) * 100 / (n : ℚ))

/-- Result of `_extract_archive`, analogous to `DlRet`. -/
structure ExRet where
  state : UState
  ok : Bool
  values : List ℚ
deriving DecidableEq, Repr

/-- `_extract_archive` (updater.py lines 658-689).  Any pre-existing
`extract_dir` is removed first (lines 661-663), then entries are extracted
one at a time with progress; a failure midway leaves the target directory as
it stands and returns `False`.  (The configured archive path is the constant
`temp_update.zip`, so the `.zip` branch of the format check is always the one
taken.) -/
def extract_archive (s : UState) (o : ExOutcome) : ExRet :=
  match o with
  | .ok n placesBinary =>
    let ems := exEmissions n n ++ [100]
    { state := { s with
        extract_incomplete := false
        fs_binary_present := placesBinary
        extract_progress := 100
        status := "解压完成" }
      ok := true
      values := ems }
  | .err done n binaryPresent =>
    let ems := exEmissions (min done n) n
    { state := { s with
        extract_incomplete := true
        fs_binary_present := binaryPresent
        extract_progress := ems.getLast?.getD s.extract_progress
        status := "解压错误"
        error_boxes := "解压失败" :: s.error_boxes }
      ok := false
      values := ems }

/-- `_check_main_program_exists` (updater.py lines 314-322). -/
def check_main_program_exists (s : UState) : UState :=
  if s.fs_binary_present then
    { s with main_program_missing := false, status := "主程序文件存在" }
  else
    { s with main_program_missing := true, status := "主程序文件缺失" }

/-- `_run_program` (updater.py lines 691-712): re-checks that the executable
exists (line 697) before spawning it; a missing executable raises
`FileNotFoundError`, which is caught and reported, and nothing is
launched. -/
def run_program (s : UState) : UState :=
  if s.fs_binary_present then
    { s with launched := true, status := "主程序已启动" }
  else
    { s with
      status := "启动程序失败"
      error_boxes := "启动程序失败" :: s.error_boxes }

/-- Whether the optional integrity verification of the downloaded archive
passes (step 2 of `_perform_update_auto`/`_perform_update_manual`): either no
expected hash is configured, or the computed digest equals it. -/
def hashOk (cfg : Config) (h : String) : Bool :=
  match cfg.expected_hash with
  | none => true
  | some e => h == e

/-- `_perform_update_auto` (updater.py lines 404-454).  The download is a
single call to `_download_archive` (there is no retry around it); on download
failure, hash mismatch (which also deletes the archive, line 423) or
extraction failure the function returns early, before the version record is
touched.  Only after all three steps succeed is the record saved and the
in-memory version advanced (lines 434-439).  A failing save raises out of
`_save_local_version` (its handler calls the nonexistent
`messagebox.warning`, line 494), skipping the remaining steps.  On full
success the temporary archive is removed, the main program re-checked and
`_run_program` invoked (lines 441-454). -/
def perform_update_auto (cfg : Config) (env : Env) (s : UState) : UState :=
  let dret := download_archive s (env.dls.head?.getD (.err [] 0))
  if !dret.ok then { dret.state with status := "下载失败" }
  else
    let s1 := dret.state
    if !hashOk cfg (s1.archive_file.getD "") then
      { s1 with
        archive_file := none
        status := "文件哈希值不匹配"
        error_boxes := "文件损坏，更新/修复失败" :: s1.error_boxes }
    else
      let eret := extract_archive s1 env.ex
      if !eret.ok then { eret.state with status := "解压失败" }
      else
        let s2 := eret.state
        if !env.saveOk then { s2 with status := "保存版本号失败" }
        else
          let s3 := { s2 with
            local_version_file := some s2.remote_version
            local_version := s2.remote_version }
          let s4 := { s3 with archive_file := none }
          run_program (check_main_program_exists s4)

/-- `_perform_update_manual` (updater.py lines 569-620): identical
sequencing to the automatic flow, but after deleting the archive it only
re-checks the main program (line 618) — it does not invoke `_run_program`;
the `finally` block merely re-enables the buttons. -/
def perform_update_manual (cfg : Config) (env : Env) (s : UState) : UState :=
  let dret := download_archive s (env.dls.head?.getD (.err [] 0))
  if !dret.ok then { dret.state with status := "下载失败" }
  else
    let s1 := dret.state
    if !hashOk cfg (s1.archive_file.getD "") then
      { s1 with
        archive_file := none
        status := "文件哈希值不匹配"
        error_boxes := "文件损坏，更新/修复失败" :: s1.error_boxes }
    else
      let eret := extract_archive s1 env.ex
      if !eret.ok then { eret.state with status := "解压失败" }
      else
        let s2 := eret.state
        if !env.saveOk then { s2 with status := "保存版本号失败" }
        else
          let s3 := { s2 with
            local_version_file := some s2.remote_version
            local_version := s2.remote_version }
          let s4 := { s3 with archive_file := none }
          check_main_program_exists s4

/-- Whether the download, the optional verification and the extraction steps
of a cycle running in environment `env` all succeed. -/
def stepsOk (cfg : Config) (env : Env) : Bool :=
  (match env.dls.head?.getD (.err [] 0) with
   | .ok _ _ h => hashOk cfg h
   | .err _ _ => false)
  &&
  (match env.ex with
   | .ok _ _ => true
   | .err _ _ _ => false)

/-- `_check_update_thread` (updater.py lines 513-519), the manual
check-update trigger: returns the new state and whether a worker thread was
started. -/
def check_update_thread (s : UState) : UState × Bool :=
  if s.is_auto_running then
    ({ s with info_boxes := "自动更新流程正在运行，请稍后再试！" :: s.info_boxes },
     false)
  else (s, true)

/-- `_update_thread` (updater.py lines 560-567), the manual update trigger:
same guard as `_check_update_thread`. -/
def update_thread (s : UState) : UState × Bool :=
  if s.is_auto_running then
    ({ s with info_boxes := "自动更新流程正在运行，请稍后再试！" :: s.info_boxes },
     false)
  else (s, true)

/-- The `retry(max_retries, delay)` decorator (updater.py lines 80-94): run
the wrapped operation on successive oracle outcomes `f i`; a raising attempt
is retried, up to `n` attempts in total, and the last attempt's exception is
re-raised. -/
def retryRun (f : Nat → Except String α) : Nat → Nat → Except String α
  | _, 0 => .error ""
  | i, 1 => f i
  | i, n + 2 =>
    match f i with
    | .ok a => .ok a
    | .error _ => retryRun f (i + 1) (n + 1)

/-- `_fetch_remote_version` wrapped by `@retry(max_retries=3, delay=1)`
(updater.py lines 346-361): `f i` is the outcome of the `i`-th HTTP attempt
(the fetched `version` field, defaulting to `"0.0.0"` when absent). -/
def fetch_remote_version (f : Nat → Except String String) : Except String String :=
  retryRun f 0 3

/-- The decision the automatic flow can reach. -/
inductive AutoAction where
  | updateFix
  | updateNormal
  | launch
  | failed
deriving DecidableEq, Repr

/-- `_check_update_auto` (updater.py lines 363-389): a remote version
comparing greater starts the update worker; equal and older both enable the
buttons and fall through to `_run_program`. -/
def check_update_auto_action (remote localv : String) : AutoAction :=
  if compare_versions remote localv > 0 then .updateNormal else .launch

/-- The decision taken by `_auto_update_flow` (updater.py lines 324-344): a
(thrice-retried) manifest fetch that still fails aborts the flow; a missing
main program forces fix mode before any version comparison; otherwise
`_check_update_auto` decides. -/
def auto_update_flow_action (f : Nat → Except String String)
    (missing : Bool) (localv : String) : AutoAction :=
  match fetch_remote_version f with
  | .error _ => .failed
  | .ok remote =>
    if missing then .updateFix else check_update_auto_action remote localv

/-- Whether an action of the automatic flow downloads the archive. -/
def AutoAction.fetchesArchive : AutoAction → Bool
  | .updateFix => true
  | .updateNormal => true
  | .launch => false
  | .failed => false

/-- On-disk states of the file at `local_version_path`. -/
inductive RecordFile where
  | absent
  | truncated
  | record (version : String)
deriving DecidableEq, Repr

/-- `_save_local_version` (updater.py lines 480-494) at filesystem
granularity: the successive on-disk states a reader can observe during the
call.  `open(path, "w")` truncates the file in place, then `json.dump`
writes the new record; there is no write-to-temporary-then-rename. -/
def save_local_version_states (f : RecordFile) (v : String) : List RecordFile :=
  [f, .truncated, .record v]

/-- An atomic save in the specification's sense: at every observable moment
the file holds either the complete old content or the complete new record. -/
def AtomicSave (old : RecordFile) (v : String) (states : List RecordFile) : Prop :=
  ∀ st ∈ states, st = old ∨ st = .record v

/-- The successive values of the download-progress variable over one update
cycle: its value when the cycle starts (nothing in `_perform_update_auto` or
`_perform_update_manual` resets it) followed by the values set during the
download step. -/
def cycle_download_values (env : Env) (s : UState) : List ℚ :=
  s.download_progress ::
    (download_archive s (env.dls.head?.getD (.err [] 0))).values

/-- The successive values of the extract-progress variable over one update
cycle: its value when the cycle starts (nothing in the cycle resets it, and
the download step does not touch it) followed by the values set during the
extraction step. -/
def cycle_extract_values (env : Env) (s : UState) : List ℚ :=
  s.extract_progress :: (extract_archive s env.ex).values

/-- A concrete pre-cycle state used to instantiate theorems: local version
1.0.0 recorded on disk and in memory, remote version already fetched as
1.1.0, binary present, no cycle running. -/
def sampleState : UState where
  local_version := "1.0.0"
  remote_version := "1.1.0"
  local_version_file := some "1.0.0"
  archive_file := none
  extract_incomplete := false
  fs_binary_present := true
  main_program_missing := false
  download_progress := 0
  extract_progress := 0
  is_auto_running := false
  launched := false
  status := "就绪"
  info_boxes := []
  error_boxes := []

/-- An environment in which every step of the cycle succeeds. -/
def envSuccess : Env where
  dls := [.ok [10] 10 "h1"]
  ex := .ok 2 true
  saveOk := true

/-- An environment whose first download attempt fails while the second and
third would succeed. -/
def envRetryProbe : Env where
  dls := [.err [] 0, .ok [10] 10 "h1", .ok [10] 10 "h1"]
  ex := .ok 2 true
  saveOk := true

/-- An environment whose single download attempt fails mid-stream. -/
def envDlFail : Env where
  dls := [.err [3] 10]
  ex := .ok 2 true
  saveOk := true

/-- An environment in which everything succeeds except the version save. -/
def envSaveFail : Env where
  dls := [.ok [10] 10 "h1"]
  ex := .ok 2 true
  saveOk := false

/-- The environment of a second cycle run after `envSuccess`. -/
def envSecondCycle : Env where
  dls := [.ok [50, 50] 100 "h2"]
  ex := .ok 2 true
  saveOk := true

/-! ## Helper lemmas about progress emissions -/

theorem runningTotals_chain (l : List Nat) (acc : Nat) :
    List.Chain' (· ≤ ·) (runningTotals acc l) := by
  induction l generalizing acc with
  | nil => simp [runningTotals]
  | cons c rest ih =>
    cases rest with
    | nil => simp [runningTotals]
    | cons c2 r2 =>
      have h := ih (acc + c)
      simp only [runningTotals] at h ⊢
      exact List.chain'_cons.mpr ⟨Nat.le_add_right _ _, h⟩

theorem runningTotals_le (l : List Nat) (acc : Nat) :
    ∀ x ∈ runningTotals acc l, x ≤ acc + l.sum := by
  induction l generalizing acc with
  | nil => intro x hx; simp [runningTotals] at hx
  | cons c rest ih =>
    intro x hx
    simp only [runningTotals, List.mem_cons] at hx
    rcases hx with rfl | hx
    · simp only [List.sum_cons]
      omega
    · have h := ih (acc + c) x hx
      simp only [List.sum_cons]
      omega

theorem sum_filter_nz (l : List Nat) :
    (l.filter (fun c => c != 0)).sum = l.sum := by
  induction l with
  | nil => rfl
  | cons c rest ih =>
    by_cases hc : c = 0
    · subst hc
      simp [List.filter_cons, ih]
    · simp [List.filter_cons, hc, ih]

theorem dl_term_mono (total : Nat) {a b : Nat} (hab : a ≤ b) :
    (a : ℚ) * 100 / (total : ℚ) ≤ (b : ℚ) * 100 / (total : ℚ) := by
  have ha : (a : ℚ) ≤ b := by exact_mod_cast hab
  gcongr

theorem dlEmissions_chain (chunks : List Nat) (total : Nat) :
    List.Chain' (· ≤ ·) (dlEmissions chunks total) := by
  unfold dlEmissions
  split
  · exact List.chain'_map_of_chain' _ (fun a b hab => dl_term_mono total hab)
      (runningTotals_chain _ _)
  · simp

theorem dlEmissions_bounds (chunks : List Nat) (total : Nat)
    (hle : chunks.sum ≤ total) :
    ∀ q ∈ dlEmissions chunks total, 0 ≤ q ∧ q ≤ 100 := by
  intro q hq
  unfold dlEmissions at hq
  split at hq
  case isTrue hpos =>
    simp only [List.mem_map] at hq
    obtain ⟨d, hd, rfl⟩ := hq
    have hds : d ≤ chunks.sum := by
      have h := runningTotals_le (chunks.filter (fun c => c != 0)) 0 d hd
      rwa [Nat.zero_add, sum_filter_nz] at h
    have hdt : d ≤ total := le_trans hds hle
    have hposq : (0 : ℚ) < total := by exact_mod_cast hpos
    refine ⟨by positivity, ?_⟩
    rw [div_le_iff₀ hposq]
    have hc : (d : ℚ) ≤ (total : ℚ) := by exact_mod_cast hdt
    nlinarith
  case isFalse => simp at hq

theorem ex_term_mono (n : Nat) {a b : Nat} (hab : a < b) :
    ((a : ℚ) + 1) * 100 / (n : ℚ) ≤ ((b : ℚ) + 1) * 100 / (n : ℚ) := by
  have ha : (a : ℚ) + 1 ≤ (b : ℚ) + 1 := by
    have h : (a : ℚ) ≤ b := by exact_mod_cast Nat.le_of_lt hab
    linarith
  gcongr

theorem exEmissions_chain (done n : Nat) :
    List.Chain' (· ≤ ·) (exEmissions done n) := by
  unfold exEmissions
  exact List.chain'_map_of_chain' _ (fun a b hab => ex_term_mono n hab)
    (List.pairwise_lt_range done).chain'

theorem exEmissions_bounds (done n : Nat) (hdn : done ≤ n) :
    ∀ q ∈ exEmissions done n, 0 ≤ q ∧ q ≤ 100 := by
  intro q hq
  unfold exEmissions at hq
  simp only [List.mem_map, List.mem_range] at hq
  obtain ⟨i, hi, rfl⟩ := hq
  have hin : i + 1 ≤ n := by omega
  have hnpos : 0 < n := by omega
  have hposq : (0 : ℚ) < n := by exact_mod_cast hnpos
  refine ⟨by positivity, ?_⟩
  rw [div_le_iff₀ hposq]
  have hc : (i : ℚ) + 1 ≤ (n : ℚ) := by exact_mod_cast hin
  nlinarith

theorem chain_append_100 (l : List ℚ) (hc : List.Chain' (· ≤ ·) l)
    (hb : ∀ q ∈ l, q ≤ 100) : List.Chain' (· ≤ ·) (l ++ [100]) := by
  apply hc.append (List.chain'_singleton _)
  intro x hx y hy
  simp only [List.head?_cons, Option.mem_def, Option.some.injEq] at hy
  subst hy
  obtain ⟨hne, hxe⟩ := List.mem_getLast?_eq_getLast hx
  subst hxe
  exact hb _ (List.getLast_mem hne)

theorem retryRun_two_plus (f : Nat → Except String α) (i n : Nat) :
    retryRun f i (n + 2)
      = (match f i with
         | .ok a => .ok a
         | .error _ => retryRun f (i + 1) (n + 1)) := rfl

theorem retryRun_one (f : Nat → Except String α) (i : Nat) :
    retryRun f i 1 = f i := rfl

theorem cmpParts_trichotomy (l1 l2 : List Nat) :
    cmpParts l1 l2 = 1 ∨ cmpParts l1 l2 = 0 ∨ cmpParts l1 l2 = -1 := by
  induction l1 generalizing l2 with
  | nil => cases l2 <;> simp [cmpParts]
  | cons a t1 ih =>
    cases l2 with
    | nil => simp [cmpParts]
    | cons b t2 =>
      simp only [cmpParts]
      split_ifs with h1 h2
      · exact Or.inl rfl
      · exact Or.inr (Or.inr rfl)
      · exact ih t2

/-! ## Claims about the update flows -/

/-- **C1.** In both the automatic and the manual update cycle, the persisted
version record is written with the new remote version only after download,
optional hash verification and extraction have all succeeded; if any of those
steps fails or aborts, both the version record file and the in-memory local
version keep their pre-cycle values. -/
theorem version_record_only_after_success (cfg : Config) (env : Env)
    (s : UState) :
    (stepsOk cfg env = false →
      (perform_update_auto cfg env s).local_version_file = s.local_version_file ∧
      (perform_update_auto cfg env s).local_version = s.local_version ∧
      (perform_update_manual cfg env s).local_version_file = s.local_version_file ∧
      (perform_update_manual cfg env s).local_version = s.local_version) ∧
    ((perform_update_auto cfg env s).local_version_file ≠ s.local_version_file →
      stepsOk cfg env = true) ∧
    ((perform_update_manual cfg env s).local_version_file ≠ s.local_version_file →
      stepsOk cfg env = true) := by
  obtain ⟨dls, ex, sv⟩ := env
  cases hd : dls.head?.getD (DlOutcome.err [] 0) with
  | err chunks total =>
    simp [stepsOk, perform_update_auto, perform_update_manual, download_archive, hd]
  | ok chunks total hsh =>
    cases hh : hashOk cfg hsh with
    | false =>
      simp [stepsOk, perform_update_auto, perform_update_manual, download_archive,
        hd, hh]
    | true =>
      cases ex with
      | err a b c =>
        simp [stepsOk, perform_update_auto, perform_update_manual,
          download_archive, extract_archive, hd, hh]
      | ok n pb =>
        cases sv <;> cases pb <;>
          simp [stepsOk, perform_update_auto, perform_update_manual,
            download_archive, extract_archive, check_main_program_exists,
            run_program, hd, hh]

theorem version_record_only_after_success_witness :
    stepsOk ⟨none⟩ envDlFail = false ∧
    (perform_update_auto ⟨none⟩ envDlFail sampleState).local_version_file
      = sampleState.local_version_file :=
  ⟨by decide,
   ((version_record_only_after_success ⟨none⟩ envDlFail sampleState).1
     (by decide)).1⟩

/-- **C2.** Given a manifest fetch that succeeded (after its own retries): a
missing installed binary forces UPDATING in fix mode regardless of the
version comparison; otherwise a remote comparing greater enters the normal
update, and a remote comparing equal or less is treated as up to date and
proceeds to launch without fetching the archive.  (The comparison takes no
values besides 1, 0, -1.) -/
theorem auto_flow_decision (f : Nat → Except String String) (rv lv : String)
    (hf : fetch_remote_version f = .ok rv) :
    auto_update_flow_action f true lv = .updateFix ∧
    (compare_versions rv lv = 1 ∨ compare_versions rv lv = 0 ∨
      compare_versions rv lv = -1) ∧
    (compare_versions rv lv = 1 →
      auto_update_flow_action f false lv = .updateNormal) ∧
    (compare_versions rv lv = 0 ∨ compare_versions rv lv = -1 →
      auto_update_flow_action f false lv = .launch ∧
      (auto_update_flow_action f false lv).fetchesArchive = false) := by
  refine ⟨?_, ?_, ?_, ?_⟩
  · unfold auto_update_flow_action
    rw [hf]
    simp
  · rw [compare_versions_eq_cmp]
    exact cmpParts_trichotomy _ _
  · intro h1
    unfold auto_update_flow_action check_update_auto_action
    rw [hf]
    simp [h1]
  · intro h0
    unfold auto_update_flow_action check_update_auto_action
      AutoAction.fetchesArchive
    rw [hf]
    rcases h0 with h0 | h0 <;> simp [h0]

theorem auto_flow_decision_witness :
    auto_update_flow_action (fun _ => .ok "1.1.0") true "2.0.0" = .updateFix ∧
    auto_update_flow_action (fun _ => .ok "1.1.0") false "1.0.0"
      = .updateNormal ∧
    auto_update_flow_action (fun _ => .ok "1.1.0") false "2.0.0" = .launch :=
  ⟨(auto_flow_decision (fun _ => .ok "1.1.0") "1.1.0" "2.0.0" rfl).1,
   (auto_flow_decision (fun _ => .ok "1.1.0") "1.1.0" "1.0.0" rfl).2.2.1
     (by decide),
   ((auto_flow_decision (fun _ => .ok "1.1.0") "1.1.0" "2.0.0" rfl).2.2.2
     (Or.inr (by decide))).1⟩

/-- **C4.** A download attempt hitting a transport error or non-success HTTP
status deletes any partially written file at the destination path before the
fetch reports failure (with an error dialog): no truncated artifact remains
on disk. -/
theorem download_failure_cleans_destination (s : UState) (chunks : List Nat)
    (total : Nat) :
    (download_archive s (.err chunks total)).ok = false ∧
    (download_archive s (.err chunks total)).state.archive_file = none ∧
    (download_archive s (.err chunks total)).state.error_boxes
      = "下载失败" :: s.error_boxes :=
  ⟨rfl, rfl, rfl⟩

/-- **C5 (counterexample).** The archive download is not wrapped by the
bounded-retry policy.  In `envRetryProbe` the first download attempt fails
while the second and third would succeed, so a download retried up to 3
attempts (the claim; modelled by `retryRun`) succeeds — but the cycle makes a
single attempt, reports download failure and leaves the version record at
its old value. -/
theorem download_not_retried_counterexample :
    (perform_update_auto ⟨none⟩ envRetryProbe sampleState).status = "下载失败" ∧
    (perform_update_auto ⟨none⟩ envRetryProbe sampleState).local_version_file
      = some "1.0.0" ∧
    retryRun (fun i => if i == 0 then .error "e" else .ok "done") 0 3
      = .ok "done" := by
  refine ⟨rfl, rfl, rfl⟩

/-- **C5 (amended).** The bounded-retry policy (3 attempts, fixed delay)
wraps the remote-version manifest fetch, not the archive download: an update
cycle consumes exactly one download attempt — its result does not depend on
any further would-be attempts — while `fetch_remote_version` succeeds as soon
as one of its first three attempts succeeds and surfaces the third attempt's
failure otherwise. -/
theorem retry_wraps_manifest_fetch_only (cfg : Config) (d : DlOutcome)
    (rest : List DlOutcome) (ex : ExOutcome) (sv : Bool) (s : UState)
    (f : Nat → Except String String) :
    perform_update_auto cfg ⟨d :: rest, ex, sv⟩ s
      = perform_update_auto cfg ⟨[d], ex, sv⟩ s ∧
    perform_update_manual cfg ⟨d :: rest, ex, sv⟩ s
      = perform_update_manual cfg ⟨[d], ex, sv⟩ s ∧
    fetch_remote_version f
      = (match f 0 with
         | .ok v => .ok v
         | .error _ =>
           match f 1 with
           | .ok v => .ok v
           | .error _ => f 2) := by
  refine ⟨rfl, rfl, ?_⟩
  cases h0 : f 0 with
  | ok v =>
    simp only [fetch_remote_version, show (3 : Nat) = 1 + 2 from rfl,
      retryRun_two_plus, retryRun_one, h0]
  | error e =>
    cases h1 : f 1 with
    | ok v =>
      simp only [fetch_remote_version, show (3 : Nat) = 1 + 2 from rfl,
        retryRun_two_plus, retryRun_one, h0, h1]
    | error e2 =>
      simp only [fetch_remote_version, show (3 : Nat) = 1 + 2 from rfl,
        retryRun_two_plus, retryRun_one, h0, h1]
      exact retryRun_one f 2

/-- **C6 (counterexample).** Saving the version record is not atomic: during
`_save_local_version` a reader can observe the truncated in-place file, which
is neither the old record nor the new one (there is no
write-then-rename). -/
theorem save_not_atomic_counterexample :
    ¬ AtomicSave (.record "1.0.0") "2.0.0"
      (save_local_version_states (.record "1.0.0") "2.0.0") := by
  intro h
  rcases h .truncated (by simp [save_local_version_states]) with h1 | h1 <;>
    cases h1

/-- **C6 (amended).** `_save_local_version` writes the record in place —
truncate, then write, not write-then-rename — so a concurrent or interrupted
reader can observe the truncated intermediate file; the completed call leaves
exactly the new record on disk, and a write failure is still reported to the
operator in the status text (and log) rather than silently dropped. -/
theorem save_in_place_and_reported (f : RecordFile) (v : String)
    (cfg : Config) (env : Env) (s : UState)
    (hsteps : stepsOk cfg env = true) (hsave : env.saveOk = false) :
    (save_local_version_states f v).getLast? = some (.record v) ∧
    RecordFile.truncated ∈ save_local_version_states f v ∧
    (perform_update_auto cfg env s).status = "保存版本号失败" ∧
    (perform_update_manual cfg env s).status = "保存版本号失败" := by
  have key : (perform_update_auto cfg env s).status = "保存版本号失败" ∧
      (perform_update_manual cfg env s).status = "保存版本号失败" := by
    obtain ⟨dls, ex, sv⟩ := env
    replace hsave : sv = false := hsave
    subst hsave
    cases hd : dls.head?.getD (DlOutcome.err [] 0) with
    | err chunks total => simp [stepsOk, hd] at hsteps
    | ok chunks total hsh =>
      cases ex with
      | err a b c => simp [stepsOk, hd] at hsteps
      | ok n pb =>
        have hh : hashOk cfg hsh = true := by simpa [stepsOk, hd] using hsteps
        constructor <;>
          simp [perform_update_auto, perform_update_manual, download_archive,
            extract_archive, hd, hh]
  exact ⟨rfl, by simp [save_local_version_states], key.1, key.2⟩

theorem save_in_place_and_reported_witness :
    RecordFile.truncated ∈ save_local_version_states (.record "1.0.0") "2.0.0" ∧
    (perform_update_auto ⟨none⟩ envSaveFail sampleState).status
      = "保存版本号失败" :=
  ⟨(save_in_place_and_reported (.record "1.0.0") "2.0.0" ⟨none⟩ envSaveFail
      sampleState (by decide) (by decide)).2.1,
   (save_in_place_and_reported (.record "1.0.0") "2.0.0" ⟨none⟩ envSaveFail
      sampleState (by decide) (by decide)).2.2.1⟩

/-- **C7 (counterexample).** The progress percentages are not reset to 0 at
the start of a new cycle: after a completed manual cycle both the
download-progress and the extract-progress variables hold 100, and over the
next cycle each variable's value sequence starts at that leftover 100 (then
drops to the first report of the new cycle) and never takes the value 0. -/
theorem progress_not_reset_counterexample :
    (cycle_download_values envSecondCycle
      (perform_update_manual ⟨none⟩ envSuccess sampleState)).head?
      = some 100 ∧
    (0 : ℚ) ∉ cycle_download_values envSecondCycle
      (perform_update_manual ⟨none⟩ envSuccess sampleState) ∧
    (cycle_extract_values envSecondCycle
      (perform_update_manual ⟨none⟩ envSuccess sampleState)).head?
      = some 100 ∧
    (0 : ℚ) ∉ cycle_extract_values envSecondCycle
      (perform_update_manual ⟨none⟩ envSuccess sampleState) := by
  refine ⟨rfl, ?_, rfl, ?_⟩
  · intro hmem
    have h2 : (0 : ℚ) ∈
        [100, (50 : ℚ) * 100 / 100, (100 : ℚ) * 100 / 100, 100] := hmem
    simp only [List.mem_cons, List.not_mem_nil, or_false] at h2
    rcases h2 with h | h | h | h <;> norm_num at h
  · intro hmem
    have h2 : (0 : ℚ) ∈
        [100, (((0 : ℕ) : ℚ) + 1) * 100 / ((2 : ℕ) : ℚ),
          (((1 : ℕ) : ℚ) + 1) * 100 / ((2 : ℕ) : ℚ), 100] := hmem
    simp only [List.mem_cons, List.not_mem_nil, or_false] at h2
    rcases h2 with h | h | h | h <;> norm_num at h

/-- **C7 (amended).** Within one cycle the emitted download percentages are
non-decreasing and lie in [0,100] whenever the bytes received do not exceed
the announced Content-Length, and likewise the extract percentages (entries
done never exceeding the entry count), each successful step ending at 100;
but the progress variables are not reset when a new cycle starts — the first
value of a cycle's download-progress sequence, and likewise of its
extract-progress sequence, is whatever the previous cycle left behind. -/
theorem progress_monotone_within_cycle (chunks : List Nat) (total : Nat)
    (hle : chunks.sum ≤ total) (done n : Nat) (hdn : done ≤ n) (env : Env)
    (s : UState) :
    List.Chain' (· ≤ ·) (dlEmissions chunks total ++ [100]) ∧
    (∀ q ∈ dlEmissions chunks total, 0 ≤ q ∧ q ≤ 100) ∧
    List.Chain' (· ≤ ·) (exEmissions done n ++ [100]) ∧
    (∀ q ∈ exEmissions done n, 0 ≤ q ∧ q ≤ 100) ∧
    (cycle_download_values env s).head? = some s.download_progress ∧
    (cycle_extract_values env s).head? = some s.extract_progress :=
  ⟨chain_append_100 _ (dlEmissions_chain _ _)
      (fun q hq => (dlEmissions_bounds _ _ hle q hq).2),
   dlEmissions_bounds _ _ hle,
   chain_append_100 _ (exEmissions_chain _ _)
      (fun q hq => (exEmissions_bounds _ _ hdn q hq).2),
   exEmissions_bounds _ _ hdn, rfl, rfl⟩

theorem progress_monotone_within_cycle_witness :
    List.Chain' (· ≤ ·) (dlEmissions [50, 50] 100 ++ [100]) ∧
    (∀ q ∈ exEmissions 1 2, 0 ≤ q ∧ q ≤ 100) :=
  ⟨(progress_monotone_within_cycle [50, 50] 100 (by decide) 1 2 (by decide)
      envSuccess sampleState).1,
   (progress_monotone_within_cycle [50, 50] 100 (by decide) 1 2 (by decide)
      envSuccess sampleState).2.2.2.1⟩

/-- **C8.** A manual check-update or update trigger received while the
automatic flow is running (`is_auto_running` set) is rejected with an info
dialog to the operator: no worker is started, and the state is otherwise
unchanged — nothing is queued. -/
theorem manual_trigger_rejected_during_auto (s : UState)
    (h : s.is_auto_running = true) :
    check_update_thread s
      = ({ s with
            info_boxes := "自动更新流程正在运行，请稍后再试！" :: s.info_boxes },
         false) ∧
    update_thread s
      = ({ s with
            info_boxes := "自动更新流程正在运行，请稍后再试！" :: s.info_boxes },
         false) := by
  unfold check_update_thread update_thread
  rw [h]
  exact ⟨if_pos rfl, if_pos rfl⟩

theorem manual_trigger_rejected_during_auto_witness :
    (check_update_thread { sampleState with is_auto_running := true }).2
      = false ∧
    (update_thread { sampleState with is_auto_running := true }).2 = false := by
  have h := manual_trigger_rejected_during_auto
    { sampleState with is_auto_running := true } rfl
  constructor
  · rw [h.1]
  · rw [h.2]

/-- **C9 (counterexample).** A fully successful manual UPDATING sequence
(download, extract and persist all succeed) deletes the temporary archive
but does not proceed to launch the application:
`_perform_update_manual` never invokes `_run_program`. -/
theorem manual_success_does_not_launch :
    stepsOk ⟨none⟩ envSuccess = true ∧
    envSuccess.saveOk = true ∧
    (perform_update_manual ⟨none⟩ envSuccess sampleState).archive_file
      = none ∧
    (perform_update_manual ⟨none⟩ envSuccess sampleState).launched = false :=
  ⟨rfl, rfl, rfl, rfl⟩

/-- **C9 (amended).** After every successful UPDATING sequence (download,
optional verify, extract, persist) the temporary archive file is deleted and
the installed binary's presence is re-checked; the automatic flow then
proceeds to launch — `_run_program` checks the binary again and launches it
exactly when present — while the manual flow stops after the re-check and
leaves launching to the user. -/
theorem cleanup_and_recheck_after_success (cfg : Config) (env : Env)
    (s : UState) (hsteps : stepsOk cfg env = true)
    (hsave : env.saveOk = true) :
    (perform_update_auto cfg env s).archive_file = none ∧
    (perform_update_auto cfg env s).main_program_missing
      = !(perform_update_auto cfg env s).fs_binary_present ∧
    (perform_update_auto cfg env s).launched
      = ((perform_update_auto cfg env s).fs_binary_present || s.launched) ∧
    (perform_update_manual cfg env s).archive_file = none ∧
    (perform_update_manual cfg env s).main_program_missing
      = !(perform_update_manual cfg env s).fs_binary_present ∧
    (perform_update_manual cfg env s).launched = s.launched := by
  obtain ⟨dls, ex, sv⟩ := env
  replace hsave : sv = true := hsave
  subst hsave
  cases hd : dls.head?.getD (DlOutcome.err [] 0) with
  | err chunks total => simp [stepsOk, hd] at hsteps
  | ok chunks total hsh =>
    cases ex with
    | err a b c => simp [stepsOk, hd] at hsteps
    | ok n pb =>
      have hh : hashOk cfg hsh = true := by simpa [stepsOk, hd] using hsteps
      cases pb <;>
        simp [perform_update_auto, perform_update_manual, download_archive,
          extract_archive, check_main_program_exists, run_program, hd, hh]

theorem cleanup_and_recheck_after_success_witness :
    (perform_update_auto ⟨none⟩ envSuccess sampleState).archive_file = none ∧
    (perform_update_manual ⟨none⟩ envSuccess sampleState).launched
      = sampleState.launched :=
  ⟨(cleanup_and_recheck_after_success ⟨none⟩ envSuccess sampleState
      (by decide) (by decide)).1,
   (cleanup_and_recheck_after_success ⟨none⟩ envSuccess sampleState
      (by decide) (by decide)).2.2.2.2.2⟩

end Updater
